import Mathlib

/-!
Verification of the Tranzy transit arrival engine
(custom_components/tranzy_transit, files api.py and coordinator.py).

Shallow embedding conventions: datetimes are integer microsecond counts
(local instants are measured from local midnight, UTC instants from the
UTC epoch), Python floats are exact rationals, Python dicts are
insertion-ordered association lists with in-place value replacement, and
Python's stable list sort is modelled by List.insertionSort.
datetime.fromisoformat is treated as an opaque parameter of type
String → Option ℤ.
-/

namespace Tranzy

/-- Python round() with no digits argument: round half to even, here on
exact rationals standing for Python floats. -/
def pyRound (q : ℚ) : ℤ :=
  let f : ℤ := ⌊q⌋
  if q - f < 1/2 then f
  else if (1 : ℚ)/2 < q - f then f + 1
  else if f % 2 = 0 then f else f + 1

/-- Round half to even of the exact ratio a / b for b > 0, computed on
integers; pyRoundDiv_eq_pyRound below proves it equal to
pyRound ((a : ℚ) / b). -/
def pyRoundDiv (a b : ℤ) : ℤ :=
  let f := Int.fdiv a b
  let r := a - f * b
  if 2 * r < b then f
  else if b < 2 * r then f + 1
  else if f % 2 = 0 then f else f + 1

/-- Python int(str) on the character list of the string: surrounding
whitespace stripped, an optional sign, then decimal digits; none models
a ValueError. -/
def pyIntChars (l : List Char) : Option ℤ :=
  let t := (((l.dropWhile Char.isWhitespace).reverse).dropWhile Char.isWhitespace).reverse
  let neg := t.head? = some '-'
  let core := if neg ∨ t.head? = some '+' then t.tail else t
  if core ≠ [] ∧ core.all Char.isDigit then
    let n : ℕ := core.foldl (fun a c => a * 10 + (c.toNat - 48)) 0
    some (if neg then -(n : ℤ) else (n : ℤ))
  else none

/-- Python int(str). -/
def pyInt (s : String) : Option ℤ := pyIntChars s.data

/-- str.split(sep) for a one-character separator, on character lists. -/
def splitOnChar (sep : Char) : List Char → List (List Char)
  | [] => [[]]
  | c :: t =>
    let r := splitOnChar sep t
    if c = sep then [] :: r
    else
      match r with
      | h :: t2 => (c :: h) :: t2
      | [] => [[c]]

/-- Python dict assignment d[k] = v on an insertion-ordered association
list: replaces the value in place when the key exists (keeping the key's
original position), otherwise appends the new binding at the end. -/
def dictSet {κ β : Type} [DecidableEq κ] : List (κ × β) → κ → β → List (κ × β)
  | [], k, v => [(k, v)]
  | (a, b) :: t, k, v => if a = k then (a, v) :: t else (a, b) :: dictSet t k v

/-- Python dict lookup d.get(k). -/
def dlookup {κ β : Type} [DecidableEq κ] : List (κ × β) → κ → Option β
  | [], _ => none
  | (a, b) :: t, k => if a = k then some b else dlookup t k

/-- The pattern `if k not in d: d[k] = []` followed by `d[k].append(x)`. -/
def dictAppend {κ β : Type} [DecidableEq κ] : List (κ × List β) → κ → β → List (κ × List β)
  | [], k, x => [(k, [x])]
  | (a, l) :: t, k, x => if a = k then (a, l ++ [x]) :: t else (a, l) :: dictAppend t k x

/-- One record of GET /stop_times, restricted to the fields api.py reads.
trip_id stands for str(st.get("trip_id", "")), so a missing trip_id is the
empty string; stop_sequence stands for int(st.get("stop_sequence", 0)). -/
structure StopTime where
  trip_id : String
  stop_id : Option ℤ
  stop_sequence : ℤ
  arrival_time : Option String
  departure_time : Option String
deriving DecidableEq

/-- One record of GET /routes; an Option field is an absent key. -/
structure Route where
  route_id : Option ℤ
  route_short_name : Option String
  route_long_name : Option String
  route_type : Option ℤ
deriving DecidableEq

/-- One record of GET /trips. -/
structure Trip where
  trip_id : Option String
  route_id : Option ℤ
  trip_headsign : Option String
deriving DecidableEq

/-- One record of GET /stops. -/
structure Stop where
  stop_id : Option ℤ
  stop_lat : Option ℚ
  stop_lon : Option ℚ
  stop_lng : Option ℚ
deriving DecidableEq

/-- One record of GET /vehicles; timestamp stands for
v.get("timestamp", ""), so a missing timestamp is the empty string. -/
structure Vehicle where
  id : Option ℤ
  label : Option String
  latitude : Option ℚ
  longitude : Option ℚ
  timestamp : String
  speed : Option ℚ
  trip_id : Option String
  route_id : Option ℤ
  vehicle_type : Option ℤ
  wheelchair_accessible : Option String
  bike_accessible : Option String
deriving DecidableEq

/-- Modelled from the spec: api.py imports VEHICLE_TYPES from const.py but
const.py as shipped does not define that name; the fixed route-type
vocabulary of spec section 6 (0 tram, 1 metro, 2 rail, 3 bus, 4 ferry,
5 cable tram, 6 aerial lift, 7 funicular, 11 trolleybus, 12 monorail) is
used instead. Only the cosmetic route_type_name field depends on it. -/
def VEHICLE_TYPES : List (ℤ × String) :=
  [(0, "Tram"), (1, "Metro"), (2, "Rail"), (3, "Bus"), (4, "Ferry"),
   (5, "Cable Tram"), (6, "Aerial Lift"), (7, "Funicular"),
   (11, "Trolleybus"), (12, "Monorail")]

/-- The h, m, s values produced by lines 246-249 of api.py
(parts = arr_time_str.split(":"); h = int(parts[0]); m = int(parts[1]);
s = int(parts[2]) if len(parts) > 2 else 0); none models the ValueError
or IndexError caught at line 263. -/
def pyParseHMS (s : String) : Option (ℤ × ℤ × ℤ) :=
  match splitOnChar ':' s.data with
  | [] => none
  | [_] => none
  | p0 :: p1 :: rest =>
    match pyIntChars p0, pyIntChars p1 with
    | some h, some m =>
      match rest with
      | [] => some (h, m, 0)
      | p2 :: _ =>
        match pyIntChars p2 with
        | some sec => some (h, m, sec)
        | none => none
    | _, _ => none

/-- Scheduled instant minus local midnight, in microseconds: with
days, h = divmod(h0, 24), the timedelta built at line 254 of api.py. -/
def schedUs (h0 m sec : ℤ) : ℤ :=
  (Int.fdiv h0 24 * 86400 + Int.fmod h0 24 * 3600 + m * 60 + sec) * 1000000

/-- diff of line 256 of api.py: (sched - now).total_seconds() / 60.0,
where nowUs is now minus local midnight in microseconds. -/
def diffMinutes (h0 m sec nowUs : ℤ) : ℚ :=
  ((schedUs h0 m sec - nowUs : ℤ) : ℚ) / 60000000

/-- Line 241 of api.py: st.get("arrival_time") or st.get("departure_time"). -/
def firstTruthy (a b : Option String) : Option String :=
  match a with
  | some s => if s = "" then b else some s
  | none => b

/-- Line 244 of api.py: arr_time_str and isinstance(arr_time_str, str)
and ":" in arr_time_str. -/
def timeGuard : Option String → Bool
  | some s => (s != "") && s.data.contains ':'
  | none => false

/-- Lines 244-264 of api.py. The result none models the continue
statement at line 262 (the record is dropped and produces no candidate);
some eta models falling through to candidate creation with the given
eta_minutes value, which is none when the guard fails or the time string
fails to parse. The float diff of line 256 is the exact ratio
d / 60000000 with d in microseconds, so the window test
-5 <= diff <= 1440 is the integer test -300000000 <= d <= 86400000000
and max(0, int(round(diff))) is max 0 (pyRoundDiv d 60000000); a
later theorem, scheduleEta_diff_spec, restates both through diffMinutes
and pyRound on ℚ. -/
def scheduleEta (arrTime : Option String) (nowUs : ℤ) : Option (Option ℤ) :=
  if timeGuard arrTime then
    match pyParseHMS (arrTime.getD "") with
    | some (h0, m, sec) =>
      let d := schedUs h0 m sec - nowUs
      if -300000000 ≤ d ∧ d ≤ 86400000000 then some (some (max 0 (pyRoundDiv d 60000000)))
      else none
    | none => some none
  else some none

/-- One entry of the list returned by get_arrivals, with the exact field
set built at lines 269-291 of api.py. -/
structure Candidate where
  trip_id : String
  route_short_name : String
  route_long_name : String
  route_id : Option ℤ
  route_type : ℤ
  route_type_name : String
  trip_headsign : String
  eta_minutes : Option ℤ
  scheduled_time : String
  our_seq_idx : Option ℤ
  vehicle_label : String
  vehicle_id : Option ℤ
  latitude : Option ℚ
  longitude : Option ℚ
  speed : Option ℚ
  stops_away : Option ℤ
  is_realtime : Bool
  timestamp : String
  wheelchair : String
  bike : String
deriving DecidableEq

/-- The schedule candidate dict literal of lines 269-291 of api.py. -/
def mkScheduleCandidate (trip : Trip) (route : Option Route) (tid : String)
    (eta : Option ℤ) (arrTimeStr : Option String) (seqIdx : Option ℤ) : Candidate :=
  let rt := (route.bind Route.route_type).getD 3
  { trip_id := tid
    route_short_name := (route.bind Route.route_short_name).getD "?"
    route_long_name := (route.bind Route.route_long_name).getD ""
    route_id := route.bind Route.route_id
    route_type := rt
    route_type_name := (dlookup VEHICLE_TYPES rt).getD "Unknown"
    trip_headsign := trip.trip_headsign.getD ""
    eta_minutes := eta
    scheduled_time := arrTimeStr.getD ""
    our_seq_idx := seqIdx
    vehicle_label := ""
    vehicle_id := none
    latitude := none
    longitude := none
    speed := none
    stops_away := none
    is_realtime := false
    timestamp := ""
    wheelchair := ""
    bike := "" }

/-- Line 237 of api.py: vehicle_type_filter is not None and
int(route_type) not in vehicle_type_filter. -/
def routeTypeExcluded (filt : Option (List ℤ)) (rt : ℤ) : Bool :=
  match filt with
  | some l => decide (rt ∉ l)
  | none => false

/-- Lines 303-305 of api.py: vehicle_type_filter is not None and
v_type not in vehicle_type_filter (a missing v_type is never a member). -/
def vehicleTypeExcluded (filt : Option (List ℤ)) (vt : Option ℤ) : Bool :=
  match filt with
  | some l => match vt with | some t => decide (t ∉ l) | none => true
  | none => false

/-- The body of the stop-times loop at lines 227-291 of api.py, as a step
function on the insertion-ordered schedule_arrivals dict. -/
def processStopTime (trips : List (String × Trip)) (routes : List (ℤ × Route))
    (serving_trips : List (String × ℤ)) (filt : Option (List ℤ)) (nowUs : ℤ)
    (acc : List (String × Candidate)) (st : StopTime) : List (String × Candidate) :=
  let tid := st.trip_id
  if tid = "" then acc else
  match dlookup trips tid with
  | none => acc
  | some trip =>
    let route := dlookup routes (trip.route_id.getD (-1))
    let rt := (route.bind Route.route_type).getD 3
    if routeTypeExcluded filt rt then acc
    else
      let arrTimeStr := firstTruthy st.arrival_time st.departure_time
      match scheduleEta arrTimeStr nowUs with
      | none => acc
      | some eta =>
        dictSet acc tid (mkScheduleCandidate trip route tid eta arrTimeStr
          (dlookup serving_trips tid))

/-- Python truthiness of an optional float coordinate: None and 0.0 are
falsy (lines 405: if not lat or not lon ...). -/
def truthyCoord : Option ℚ → Bool
  | some x => x != 0
  | none => false

/-- Squared planar distance from (la, lo) to the stop sid, following
lines 409-414 of api.py: slat = s.get("stop_lat"),
slon = s.get("stop_lon", s.get("stop_lng")); none when either is absent
(the loop body continues). -/
def stopDist (stops : List (ℤ × Stop)) (la lo : ℚ) (sid : ℤ) : Option ℚ :=
  let s := dlookup stops sid
  match s.bind Stop.stop_lat, (s.bind Stop.stop_lon).orElse (fun _ => s.bind Stop.stop_lng) with
  | some a, some o => some ((la - a) ^ 2 + (lo - o) ^ 2)
  | _, _ => none

/-- Loop body of lines 408-417 of api.py on the (best_idx, best_d) pair;
best_d = none stands for the initial float("inf"). -/
def estimateStep (stops : List (ℤ × Stop)) (la lo : ℚ)
    (acc : ℕ × Option ℚ) (p : ℕ × ℤ) : ℕ × Option ℚ :=
  match stopDist stops la lo p.2 with
  | none => acc
  | some d =>
    match acc.2 with
    | none => (p.1, some d)
    | some bd => if d < bd then (p.1, some d) else acc

/-- The method _estimate_seq, lines 403-418 of api.py. -/
def estimate_seq (stops : List (ℤ × Stop)) (lat lon : Option ℚ)
    (trip_stops : List ℤ) : Option ℕ :=
  if !truthyCoord lat || !truthyCoord lon || trip_stops.isEmpty || stops.isEmpty then none
  else some ((trip_stops.enum.foldl (estimateStep stops (lat.getD 0) (lon.getD 0)) (0, none)).1)

/-- Freshness check of lines 310-319 of api.py; iso models
datetime.fromisoformat applied to the timestamp after replacing a "Z"
suffix with "+00:00", returning microseconds since the UTC epoch, and
none models the ValueError or TypeError caught at line 317. The
comparison is (now_utc - vt).total_seconds() < 600. -/
def is_fresh (iso : String → Option ℤ) (nowUtcUs : ℤ) (ts : String) : Bool :=
  if ts = "" then false
  else match iso ts with
    | some vt => decide ((nowUtcUs - vt : ℤ) < 600000000)
    | none => false

/-- Python truthiness of the optional trip_id string (line 323 and 350). -/
def truthyStr : Option String → Bool
  | some s => s != ""
  | none => false

/-- The synthetic candidate dict literal of lines 357-378 of api.py. -/
def mkVehicleCandidate (route : Option Route) (rid : ℤ) (rt : ℤ) (v : Vehicle) : Candidate :=
  { trip_id := ""
    route_short_name := (route.bind Route.route_short_name).getD "?"
    route_long_name := (route.bind Route.route_long_name).getD ""
    route_id := some rid
    route_type := rt
    route_type_name := (dlookup VEHICLE_TYPES rt).getD "Unknown"
    trip_headsign := ""
    eta_minutes := none
    scheduled_time := ""
    our_seq_idx := none
    vehicle_label := v.label.getD ""
    vehicle_id := v.id
    latitude := v.latitude
    longitude := v.longitude
    speed := some (v.speed.getD 0)
    stops_away := none
    is_realtime := true
    timestamp := v.timestamp
    wheelchair := v.wheelchair_accessible.getD ""
    bike := v.bike_accessible.getD "" }

/-- Field updates applied to a matched schedule candidate at lines
337-346 of api.py, given the final stops_away value. -/
def enrichCandidate (a : Candidate) (v : Vehicle) (sa : Option ℤ) : Candidate :=
  { a with
    vehicle_label := v.label.getD ""
    vehicle_id := v.id
    latitude := v.latitude
    longitude := v.longitude
    speed := some (v.speed.getD 0)
    stops_away := sa.map (fun x => max 0 x)
    is_realtime := true
    timestamp := v.timestamp
    wheelchair := v.wheelchair_accessible.getD ""
    bike := v.bike_accessible.getD "" }

/-- Lines 329-330 of api.py: stops_away = our_idx - v_seq when both are
known, else None. -/
def vehicleStopsAway (a : Candidate) (vseq : Option ℕ) : Option ℤ :=
  match a.our_seq_idx, vseq with
  | some oi, some vs => some (oi - (vs : ℤ))
  | _, _ => none

/-- Lines 331-346 of api.py: the update applied to a matched schedule
candidate given the raw stops_away value. -/
def enrichMatched (acc : List (String × Candidate)) (tid : String)
    (a : Candidate) (v : Vehicle) (sa0 : Option ℤ) : List (String × Candidate) :=
  match sa0 with
  | some sa =>
    if sa < -1 then
      if a.eta_minutes = none then acc
      else dictSet acc tid (enrichCandidate a v none)
    else dictSet acc tid (enrichCandidate a v (some sa))
  | none => dictSet acc tid (enrichCandidate a v none)

/-- Lines 351-378 of api.py: route-only vehicle added once under its
synthetic key. -/
def addSyntheticVehicle (acc : List (String × Candidate)) (routes : List (ℤ × Route))
    (rid : ℤ) (v : Vehicle) : List (String × Candidate) :=
  let route := dlookup routes rid
  let rt := (route.bind Route.route_type).getD
    (match v.vehicle_type with | some t => if t = 0 then 3 else t | none => 3)
  let extra_key := "_vehicle_" ++ (match v.id with | some i => toString i | none => "")
  if (dlookup acc extra_key).isSome then acc
  else acc ++ [(extra_key, mkVehicleCandidate route rid rt v)]

/-- The body of the vehicles loop at lines 302-378 of api.py, as a step
function on the schedule_arrivals dict. -/
def enrichVehicle (stops : List (ℤ × Stop)) (routes : List (ℤ × Route))
    (trip_stop_order : List (String × List ℤ)) (serving_route_ids : List ℤ)
    (filt : Option (List ℤ)) (nowUtcUs : ℤ) (iso : String → Option ℤ)
    (acc : List (String × Candidate)) (v : Vehicle) : List (String × Candidate) :=
  if vehicleTypeExcluded filt v.vehicle_type then acc
  else if !is_fresh iso nowUtcUs v.timestamp then acc
  else
    let tid := v.trip_id.getD ""
    match truthyStr v.trip_id, dlookup acc tid with
    | true, some a =>
      -- Case 1, lines 323-346: the vehicle is on a trip serving our stop.
      let trip_stops := (dlookup trip_stop_order tid).getD []
      let v_seq := estimate_seq stops v.latitude v.longitude trip_stops
      enrichMatched acc tid a v (vehicleStopsAway a v_seq)
    | _, _ =>
      -- Case 2, lines 349-378: on a serving route but with no trip_id.
      match v.route_id with
      | some rid =>
        if rid ∈ serving_route_ids ∧ truthyStr v.trip_id = false then
          addSyntheticVehicle acc routes rid v
        else acc
      | none => acc

/-- sort_key of lines 384-394 of api.py. -/
def sortKey (a : Candidate) : ℤ × ℤ × ℤ :=
  match a.eta_minutes with
  | some eta => (0, eta, 0)
  | none =>
    match a.stops_away with
    | some sa => (1, sa, 0)
    | none => if a.is_realtime then (2, 0, 0) else (3, 999, 0)

/-- Lexicographic comparison of Python tuples of three ints. -/
def lexLE (x y : ℤ × ℤ × ℤ) : Prop :=
  x.1 < y.1 ∨ (x.1 = y.1 ∧ (x.2.1 < y.2.1 ∨ (x.2.1 = y.2.1 ∧ x.2.2 ≤ y.2.2)))

instance : DecidableRel lexLE := fun x y => by
  unfold lexLE; infer_instance

/-- Ordering used by result.sort(key=sort_key) at line 396 of api.py. -/
def keyLE (a b : Candidate) : Prop := lexLE (sortKey a) (sortKey b)

instance : DecidableRel keyLE := fun a b => by
  unfold keyLE; infer_instance

instance : IsTotal Candidate keyLE where
  total a b := by
    unfold keyLE lexLE; omega

instance : IsTrans Candidate keyLE where
  trans a b c := by
    unfold keyLE lexLE; omega

/-- The keep-condition of the filter at line 399 of api.py. -/
def hasSignal (a : Candidate) : Bool :=
  a.eta_minutes.isSome || a.stops_away.isSome || a.is_realtime

/-- Lines 380-399 of api.py: stable sort by sort_key, then the filter.
Python's list.sort is a stable sort, modelled by List.insertionSort. -/
def sortAndFilter (l : List Candidate) : List Candidate :=
  (List.insertionSort keyLE l).filter hasSignal

/-- Static GTFS data as cached by ensure_static (the fields of
TranzyApiClient that get_arrivals reads, already built). -/
structure StaticData where
  routes : List (ℤ × Route)
  stops : List (ℤ × Stop)
  trips : List (String × Trip)
  stop_times_by_stop : List (ℤ × List StopTime)
  trip_stop_order : List (String × List ℤ)
  trips_for_stop : List (ℤ × List (String × ℤ))
deriving DecidableEq

/-- Lines 215-220 of api.py: the set of route ids serving the stop
(collected as a duplicate-free list; only membership is ever used). -/
def servingRouteIds (trips : List (String × Trip)) (serving_trips : List (String × ℤ)) : List ℤ :=
  serving_trips.foldl (fun s p =>
    match (dlookup trips p.1).bind Trip.route_id with
    | some rid => if rid ∈ s then s else s ++ [rid]
    | none => s) []

/-- Errors raised by TranzyApiClient (api.py lines 40-50). -/
inductive TzErr
  | auth
  | rateLimit
  | connection
  | api
deriving DecidableEq

/-- Lines 294-298 of api.py: a failed vehicle fetch is caught and
treated as an empty vehicle list. -/
def fetchedVehicles : Except TzErr (List Vehicle) → List Vehicle
  | .ok vs => vs
  | .error _ => []

/-- The schedule_arrivals dict after both the stop-times loop and the
vehicles loop (lines 222-378 of api.py); its order is the discovery
order exposed by .values(). -/
def arrivalsDict (sd : StaticData) (stop_id : ℤ) (filt : Option (List ℤ))
    (nowUs nowUtcUs : ℤ) (vehiclesFetch : Except TzErr (List Vehicle))
    (iso : String → Option ℤ) : List (String × Candidate) :=
  let our_stop_times := (dlookup sd.stop_times_by_stop stop_id).getD []
  let serving_trips := (dlookup sd.trips_for_stop stop_id).getD []
  let sched := our_stop_times.foldl
    (processStopTime sd.trips sd.routes serving_trips filt nowUs) []
  (fetchedVehicles vehiclesFetch).foldl
    (enrichVehicle sd.stops sd.routes sd.trip_stop_order
      (servingRouteIds sd.trips serving_trips) filt nowUtcUs iso) sched

/-- The method get_arrivals, lines 195-401 of api.py, over already-loaded
static data. -/
def get_arrivals (sd : StaticData) (stop_id : ℤ) (filt : Option (List ℤ))
    (nowUs nowUtcUs : ℤ) (vehiclesFetch : Except TzErr (List Vehicle))
    (iso : String → Option ℤ) : List Candidate :=
  if ((dlookup sd.stop_times_by_stop stop_id).getD []).isEmpty then []
  else sortAndFilter ((arrivalsDict sd stop_id filt nowUs nowUtcUs vehiclesFetch iso).map Prod.snd)

/-- Line 139 of api.py: the routes dict comprehension keyed by route_id,
keeping only records that carry the key (later duplicates overwrite). -/
def buildRoutes (rs : List Route) : List (ℤ × Route) :=
  rs.foldl (fun d r =>
    match r.route_id with
    | some k => dictSet d k r
    | none => d) []

/-- Line 140 of api.py: the stops dict comprehension keyed by stop_id. -/
def buildStops (ss : List Stop) : List (ℤ × Stop) :=
  ss.foldl (fun d s =>
    match s.stop_id with
    | some k => dictSet d k s
    | none => d) []

/-- Line 141 of api.py: the trips dict comprehension keyed by trip_id. -/
def buildTrips (ts : List Trip) : List (String × Trip) :=
  ts.foldl (fun d t =>
    match t.trip_id with
    | some k => dictSet d k t
    | none => d) []

/-- Lines 144-161 of api.py: one pass over stop_times filling both
stop_times_by_stop and the raw per-trip (stop_sequence, stop_id) lists. -/
def indexStopTimes (st_r : List StopTime) :
    List (ℤ × List StopTime) × List (String × List (ℤ × ℤ)) :=
  st_r.foldl (fun acc st =>
    match st.stop_id with
    | none => acc
    | some sid =>
      if st.trip_id = "" then acc
      else (dictAppend acc.1 sid st, dictAppend acc.2 st.trip_id (st.stop_sequence, sid)))
    ([], [])

/-- Lexicographic order on the (stop_sequence, stop_id) pairs sorted by
pairs.sort() at line 166 of api.py. -/
def pairLE (x y : ℤ × ℤ) : Prop := x.1 < y.1 ∨ (x.1 = y.1 ∧ x.2 ≤ y.2)

instance : DecidableRel pairLE := fun x y => by
  unfold pairLE; infer_instance

/-- Lines 164-167 of api.py: per-trip ordered stop lists. -/
def buildTripStopOrder (raw : List (String × List (ℤ × ℤ))) : List (String × List ℤ) :=
  raw.map (fun p => (p.1, (List.insertionSort pairLE p.2).map Prod.snd))

/-- Inner assignment of lines 169-175 of api.py:
if sid not in tfs: tfs[sid] = ...; tfs[sid][tid] = idx. -/
def tfsSet (d : List (ℤ × List (String × ℤ))) (sid : ℤ) (tid : String) (idx : ℤ) :
    List (ℤ × List (String × ℤ)) :=
  match d with
  | [] => [(sid, [(tid, idx)])]
  | (a, m) :: t => if a = sid then (a, dictSet m tid idx) :: t else (a, m) :: tfsSet t sid tid idx

/-- Lines 170-175 of api.py: the reverse index stop_id to trip positions. -/
def buildTripsForStop (tso : List (String × List ℤ)) : List (ℤ × List (String × ℤ)) :=
  tso.foldl (fun d p =>
    p.2.enum.foldl (fun d2 q => tfsSet d2 q.2 p.1 (q.1 : ℤ)) d) []

/-- The mutable fields of TranzyApiClient touched by ensure_static
(api.py lines 66-77); a none field is the initial None. -/
structure ClientState where
  routes : Option (List (ℤ × Route))
  stops : Option (List (ℤ × Stop))
  trips : Option (List (String × Trip))
  stop_times_by_stop : Option (List (ℤ × List StopTime))
  trip_stop_order : Option (List (String × List ℤ))
  trips_for_stop : Option (List (ℤ × List (String × ℤ)))
  cache_ts : Option ℤ
deriving DecidableEq

/-- self._cache_ttl = timedelta(hours=4), in microseconds. -/
def CACHE_TTL_US : ℤ := 4 * 3600 * 1000000

/-- The method _cache_ok, lines 126-127 of api.py. -/
def cache_ok (st : ClientState) (nowUtcUs : ℤ) : Bool :=
  match st.cache_ts with
  | some ts => decide (nowUtcUs - ts < CACHE_TTL_US)
  | none => false

/-- The four record arrays returned by the asyncio.gather of lines
134-137 of api.py when every fetch succeeds. -/
structure FetchPayload where
  routes_r : List Route
  stops_r : List Stop
  trips_r : List Trip
  st_r : List StopTime
deriving DecidableEq

/-- Outcome of one ensure_static call: the client state afterwards, the
exception propagated to the caller if any, and whether the upstream
four-way fetch was performed. -/
structure EnsureResult where
  state : ClientState
  error : Option TzErr
  fetched : Bool
deriving DecidableEq

/-- The method ensure_static, lines 129-182 of api.py. nowCheckUs is the
dt_util.utcnow() read by _cache_ok and nowDoneUs the one stored at line
182. When asyncio.gather raises, none of the assignments at lines
139-182 run, so every cached field keeps its previous value. -/
def ensure_static (st : ClientState) (nowCheckUs nowDoneUs : ℤ)
    (fetch : Except TzErr FetchPayload) : EnsureResult :=
  if cache_ok st nowCheckUs then ⟨st, none, false⟩
  else
    match fetch with
    | .error e => ⟨st, some e, true⟩
    | .ok d =>
      let idx := indexStopTimes d.st_r
      let tso := buildTripStopOrder idx.2
      ⟨⟨some (buildRoutes d.routes_r), some (buildStops d.stops_r),
        some (buildTrips d.trips_r), some idx.1, some tso,
        some (buildTripsForStop tso), some nowDoneUs⟩, none, true⟩

/-- Exceptions that can leave TranzyTransitCoordinator._async_update_data
(coordinator.py lines 43-76): UpdateFailed from the two except clauses,
or an uncaught AttributeError. -/
inductive CoordExc
  | updateFailed
  | attributeError
deriving DecidableEq

/-- The attribute name called on self.client at coordinator.py line 46. -/
def coordinator_called_method : String := "get_arrivals_for_stop"

/-- The methods defined on TranzyApiClient in api.py (class body,
lines 53-421). -/
def tranzy_api_client_methods : List String :=
  ["__init__", "_hdrs", "_get", "get_agencies", "test_api_key", "test_agency",
   "_cache_ok", "ensure_static", "validate_stop", "get_vehicles",
   "get_arrivals", "_estimate_seq", "invalidate_cache"]

/-- The parameter names of TranzyApiClient.get_arrivals
(api.py lines 195-199). -/
def get_arrivals_params : List String := ["self", "stop_id", "vehicle_type_filter"]

/-- Python attribute lookup on a TranzyApiClient instance: AttributeError
when the name is not defined on the class. -/
def clientGetattr (name : String) : Except CoordExc Unit :=
  if name ∈ tranzy_api_client_methods then .ok () else .error .attributeError

/-- The method _async_update_data, coordinator.py lines 43-76. The try
block first resolves self.client.get_arrivals_for_stop; an
AttributeError there matches neither TranzyAuthError nor TranzyApiError,
so the except clauses at lines 73-76 do not convert it into
UpdateFailed and no data dict is returned. Unit stands for the data
dict built at lines 64-71. -/
def async_update_data : Except CoordExc Unit :=
  match clientGetattr coordinator_called_method with
  | .error e => .error e
  | .ok _ => .ok ()

/-- Route record shared by the concrete counterexample inputs. -/
def cexRoute : Route := ⟨some 9, some "40", some "Long name", some 0⟩

/-- Trip record shared by the concrete counterexample inputs. -/
def cexTrip : Trip := ⟨some "t1", some 9, some "Center"⟩

/-- Stop-time record for trip t1 at stop 1 with the given arrival time. -/
def cexStopTime (t : String) : StopTime := ⟨"t1", some 1, 0, some t, none⟩

/-- Static data with one route, one trip t1 and one stop 1, whose
stop-time list at stop 1 is the given records. -/
def cexStatic (recs : List StopTime) : StaticData :=
  ⟨[(9, cexRoute)], [], [("t1", cexTrip)], [(1, recs)], [("t1", [1])], [(1, [("t1", 0)])]⟩

/-- Stop with identity 5 and no coordinate fields, used by the C7
counterexample. -/
def cexNoCoordStop : Stop := ⟨some 5, none, none, none⟩

/-- Shape invariant of every candidate stored in the arrivals dict: a
schedule ETA is nonnegative and traceable to an accepted stop-time
record of this stop, and stops_away is never negative. -/
def CandInv (recs : List StopTime) (nowUs : ℤ) (c : Candidate) : Prop :=
  (∀ e, c.eta_minutes = some e → 0 ≤ e
    ∧ ∃ rec ∈ recs,
        scheduleEta (firstTruthy rec.arrival_time rec.departure_time) nowUs = some (some e))
  ∧ (∀ s, c.stops_away = some s → 0 ≤ s)

/-- The pairwise ordering properties asserted by the ranking claim: an
eta-less candidate never precedes an eta-bearing one, etas ascend, a
realtime candidate with neither signal is never followed by a
stops_away-tier candidate, and a candidate with no signal at all is
followed only by candidates with no signal. -/
def orderOK (a b : Candidate) : Prop :=
  (b.eta_minutes.isSome = true → a.eta_minutes.isSome = true)
  ∧ (∀ ea eb, a.eta_minutes = some ea → b.eta_minutes = some eb → ea ≤ eb)
  ∧ (a.is_realtime = true → a.eta_minutes = none → a.stops_away = none →
      ¬(b.eta_minutes = none ∧ b.stops_away.isSome = true))
  ∧ (a.is_realtime = false → a.eta_minutes = none → a.stops_away = none →
      b.is_realtime = false ∧ b.eta_minutes = none ∧ b.stops_away = none)

/-- Stop record without coordinates for the C10 witness scenario. -/
def w10stop : Stop := ⟨some 5, none, none, none⟩

/-- Schedule candidate with eta 7 and trip index 3 for the C10 witness. -/
def w10a : Candidate := mkScheduleCandidate ⟨some "t1", none, none⟩ none "t1" (some 7) none (some 3)

/-- Fresh vehicle on trip t1 for the C10 witness. -/
def w10v : Vehicle :=
  ⟨some 1, none, some 1, some 1, "ts", none, some "t1", none, none, none, none⟩

/-! Bridge lemmas between the executable integer microsecond arithmetic
and the rational formulas of the specification. -/

theorem floor_div_usPerMin (a : ℤ) :
    ⌊(a : ℚ) / 60000000⌋ = Int.fdiv a 60000000 := by
  have h := Rat.floor_intCast_div_natCast a 60000000
  have h2 : ((60000000 : ℕ) : ℚ) = (60000000 : ℚ) := by norm_num
  rw [h2] at h
  rw [h, Int.fdiv_eq_ediv a (by norm_num)]
  norm_num

theorem pyRoundDiv_eq_pyRound (a : ℤ) :
    pyRoundDiv a 60000000 = pyRound ((a : ℚ) / 60000000) := by
  have hb : (0 : ℚ) < 60000000 := by norm_num
  have hf := floor_div_usPerMin a
  have hsub : (a : ℚ) / 60000000 - ((Int.fdiv a 60000000 : ℤ) : ℚ)
      = ((a - Int.fdiv a 60000000 * 60000000 : ℤ) : ℚ) / 60000000 := by
    push_cast; ring
  have hq1 : (2 * (a - Int.fdiv a 60000000 * 60000000) < 60000000)
      ↔ ((a : ℚ) / 60000000 - ((Int.fdiv a 60000000 : ℤ) : ℚ) < 1/2) := by
    rw [hsub, div_lt_iff₀ hb]
    rw [show (1/2 : ℚ) * 60000000 = ((30000000 : ℤ) : ℚ) by norm_num]
    rw [Int.cast_lt]
    omega
  have hq2 : (60000000 < 2 * (a - Int.fdiv a 60000000 * 60000000))
      ↔ ((1 : ℚ)/2 < (a : ℚ) / 60000000 - ((Int.fdiv a 60000000 : ℤ) : ℚ)) := by
    rw [hsub, lt_div_iff₀ hb]
    rw [show (1/2 : ℚ) * 60000000 = ((30000000 : ℤ) : ℚ) by norm_num]
    rw [Int.cast_lt]
    omega
  simp only [pyRoundDiv, pyRound, hf]
  exact if_congr hq1 rfl (if_congr hq2 rfl rfl)

theorem window_iff (d : ℤ) :
    (-300000000 ≤ d ∧ d ≤ 86400000000)
      ↔ (-5 ≤ (d : ℚ) / 60000000 ∧ (d : ℚ) / 60000000 ≤ 1440) := by
  have hb : (0 : ℚ) < 60000000 := by norm_num
  rw [le_div_iff₀ hb, div_le_iff₀ hb]
  rw [show (-5 : ℚ) * 60000000 = ((-300000000 : ℤ) : ℚ) by norm_num]
  rw [show (1440 : ℚ) * 60000000 = ((86400000000 : ℤ) : ℚ) by norm_num]
  rw [Int.cast_le, Int.cast_le]

/-- scheduleEta restated through the exact rational diff of line 256:
once the guard passes and the time string parses, the record is accepted
exactly when diffMinutes lies in the window, and the eta is
max(0, round(diffMinutes)). -/
theorem scheduleEta_diff_spec (s : Option String) (nowUs h0 m sec : ℤ)
    (hg : timeGuard s = true) (hp : pyParseHMS (s.getD "") = some (h0, m, sec)) :
    scheduleEta s nowUs =
      if -5 ≤ diffMinutes h0 m sec nowUs ∧ diffMinutes h0 m sec nowUs ≤ 1440
      then some (some (max 0 (pyRound (diffMinutes h0 m sec nowUs))))
      else none := by
  have hd : diffMinutes h0 m sec nowUs = ((schedUs h0 m sec - nowUs : ℤ) : ℚ) / 60000000 := rfl
  rw [scheduleEta, hg, if_pos rfl, hp]
  simp only [hd, ← window_iff, ← pyRoundDiv_eq_pyRound]

theorem mem_dictSet {κ β : Type} [DecidableEq κ] :
    ∀ {l : List (κ × β)} {k : κ} {v : β} {p : κ × β},
      p ∈ dictSet l k v → p = (k, v) ∨ p ∈ l
  | [], k, v, p, h => Or.inl (by simpa [dictSet] using h)
  | (a, b) :: t, k, v, p, h => by
    by_cases hak : a = k
    · rw [dictSet, if_pos hak] at h
      rcases List.mem_cons.mp h with h1 | h1
      · exact Or.inl (by rw [h1, hak])
      · exact Or.inr (List.mem_cons_of_mem _ h1)
    · rw [dictSet, if_neg hak] at h
      rcases List.mem_cons.mp h with h1 | h1
      · exact Or.inr (by rw [h1]; exact List.mem_cons_self _ _)
      · rcases mem_dictSet h1 with h2 | h2
        · exact Or.inl h2
        · exact Or.inr (List.mem_cons_of_mem _ h2)

theorem dlookup_dictSet_self {κ β : Type} [DecidableEq κ] :
    ∀ (l : List (κ × β)) (k : κ) (v : β), dlookup (dictSet l k v) k = some v
  | [], k, v => by simp [dictSet, dlookup]
  | (a, b) :: t, k, v => by
    by_cases hak : a = k
    · rw [dictSet, if_pos hak, dlookup, if_pos hak]
    · rw [dictSet, if_neg hak, dlookup, if_neg hak]
      exact dlookup_dictSet_self t k v

theorem dlookup_dictSet_ne {κ β : Type} [DecidableEq κ] :
    ∀ (l : List (κ × β)) (k k2 : κ) (v : β), k2 ≠ k →
      dlookup (dictSet l k v) k2 = dlookup l k2
  | [], k, k2, v, h => by
    have hn : ¬ k = k2 := fun he => h he.symm
    simp [dictSet, dlookup, hn]
  | (a, b) :: t, k, k2, v, h => by
    by_cases hak : a = k
    · have hna : ¬ a = k2 := fun he => h (he.symm.trans hak)
      rw [dictSet, if_pos hak, dlookup, if_neg hna, dlookup, if_neg hna]
    · by_cases hak2 : a = k2
      · rw [dictSet, if_neg hak, dlookup, if_pos hak2, dlookup, if_pos hak2]
      · rw [dictSet, if_neg hak, dlookup, if_neg hak2, dlookup, if_neg hak2]
        exact dlookup_dictSet_ne t k k2 v h

theorem keys_dictSet {κ β : Type} [DecidableEq κ] :
    ∀ (l : List (κ × β)) (k : κ) (v : β),
      (dictSet l k v).map Prod.fst = if k ∈ l.map Prod.fst then l.map Prod.fst
        else l.map Prod.fst ++ [k]
  | [], k, v => by simp [dictSet]
  | (a, b) :: t, k, v => by
    by_cases hak : a = k
    · rw [dictSet, if_pos hak, hak]
      simp
    · have hka : ¬ k = a := fun he => hak he.symm
      rw [dictSet, if_neg hak]
      simp only [List.map_cons, List.mem_cons, hka, false_or, keys_dictSet t k v]
      by_cases hm : k ∈ t.map Prod.fst <;> simp [hm]

theorem foldl_preserve {α β : Type} (P : α → Prop) (f : α → β → α) (l : List β) (init : α)
    (hstep : ∀ a x, x ∈ l → P a → P (f a x)) (hinit : P init) : P (l.foldl f init) := by
  induction l generalizing init with
  | nil => simpa using hinit
  | cons hd t ih =>
    simp only [List.foldl_cons]
    exact ih _ (fun a x hx ha => hstep a x (List.mem_cons_of_mem _ hx) ha)
      (hstep init hd (List.mem_cons_self _ _) hinit)

/-! Claim theorems. -/

/-- C2: every invocation of TranzyTransitCoordinator._async_update_data
raises and never returns a data dictionary: it calls
self.client.get_arrivals_for_stop, but TranzyApiClient defines no method
of that name (only get_arrivals, which has no max_arrivals parameter),
and the resulting AttributeError matches neither TranzyAuthError nor
TranzyApiError, so it is not converted into UpdateFailed. -/
theorem update_data_always_raises :
    async_update_data = Except.error CoordExc.attributeError
    ∧ coordinator_called_method ∉ tranzy_api_client_methods
    ∧ "get_arrivals" ∈ tranzy_api_client_methods
    ∧ "max_arrivals" ∉ get_arrivals_params
    ∧ CoordExc.attributeError ≠ CoordExc.updateFailed := by
  exact ⟨rfl, by decide, by decide, by decide, by decide⟩

/-- C3: if the four-way static fetch raises inside ensure_static, the
cached fields (_routes, _stops, _trips, _stop_times_by_stop,
_trip_stop_order, _trips_for_stop, _cache_ts) are left exactly as they
were before the call and the error is propagated to the caller. -/
theorem ensure_static_failure_preserves_cache (st : ClientState)
    (t1 t2 : ℤ) (e : TzErr) (hmiss : cache_ok st t1 = false) :
    (ensure_static st t1 t2 (.error e)).state = st
    ∧ (ensure_static st t1 t2 (.error e)).error = some e := by
  rw [ensure_static, hmiss]
  exact ⟨rfl, rfl⟩

/-- Witness for C3 at the initial client state and a connection error. -/
theorem ensure_static_failure_preserves_cache_witness :
    (ensure_static ⟨none, none, none, none, none, none, none⟩ 0 0 (.error .connection)).state
      = ⟨none, none, none, none, none, none, none⟩
    ∧ (ensure_static ⟨none, none, none, none, none, none, none⟩ 0 0 (.error .connection)).error
      = some .connection :=
  ensure_static_failure_preserves_cache ⟨none, none, none, none, none, none, none⟩ 0 0
    .connection (by decide)

/-- C9: when the cache timestamp is set and its age is inside the 4-hour
TTL, ensure_static returns immediately, performing no upstream fetch and
changing no cached state; hence after a successful refresh stamped at
t1d, a second call whose _cache_ok check happens at t2c with
t2c - t1d < TTL performs no fetch, so the two calls perform exactly one
upstream fetch between them. -/
theorem ensure_static_ttl_idempotent :
    (∀ st tc td fetch, cache_ok st tc = true →
      ensure_static st tc td fetch = ⟨st, none, false⟩)
    ∧ (∀ st t1c t1d t2c t2d d fetch2, cache_ok st t1c = false →
        t2c - t1d < CACHE_TTL_US →
        (ensure_static st t1c t1d (.ok d)).fetched = true
        ∧ ensure_static (ensure_static st t1c t1d (.ok d)).state t2c t2d fetch2
          = ⟨(ensure_static st t1c t1d (.ok d)).state, none, false⟩) := by
  constructor
  · intro st tc td fetch h
    rw [ensure_static.eq_def, h]
    rfl
  · intro st t1c t1d t2c t2d d fetch2 h1 h2
    have hr1 : ensure_static st t1c t1d (.ok d) =
        ⟨⟨some (buildRoutes d.routes_r), some (buildStops d.stops_r),
          some (buildTrips d.trips_r), some (indexStopTimes d.st_r).1,
          some (buildTripStopOrder (indexStopTimes d.st_r).2),
          some (buildTripsForStop (buildTripStopOrder (indexStopTimes d.st_r).2)),
          some t1d⟩, none, true⟩ := by
      rw [ensure_static.eq_def, h1]
      rfl
    rw [hr1]
    refine ⟨rfl, ?_⟩
    have hok : cache_ok
        ⟨some (buildRoutes d.routes_r), some (buildStops d.stops_r),
         some (buildTrips d.trips_r), some (indexStopTimes d.st_r).1,
         some (buildTripStopOrder (indexStopTimes d.st_r).2),
         some (buildTripsForStop (buildTripStopOrder (indexStopTimes d.st_r).2)),
         some t1d⟩ t2c = true := by
      simp only [cache_ok, decide_eq_true_eq]
      exact h2
    rw [ensure_static.eq_def, hok]
    rfl

/-- Witness for C9: a warm-cache call is a no-op, and a fetch at time 0
stamped at 5 shields a second call checking at time 6. -/
theorem ensure_static_ttl_idempotent_witness :
    ensure_static ⟨none, none, none, none, none, none, some 0⟩ 1 1 (.error .api)
      = ⟨⟨none, none, none, none, none, none, some 0⟩, none, false⟩
    ∧ ensure_static
        (ensure_static ⟨none, none, none, none, none, none, none⟩ 0 5 (.ok ⟨[], [], [], []⟩)).state
        6 7 (.error .api)
      = ⟨(ensure_static ⟨none, none, none, none, none, none, none⟩ 0 5
          (.ok ⟨[], [], [], []⟩)).state, none, false⟩ :=
  ⟨ensure_static_ttl_idempotent.1 _ 1 1 _ (by decide),
   (ensure_static_ttl_idempotent.2 _ 0 5 6 7 ⟨[], [], [], []⟩ (.error .api)
     (by decide) (by decide)).2⟩

/-- C8: a vehicle report is fresh exactly when its timestamp string is
nonempty, parses, and satisfies now - timestamp < 600 seconds (10
minutes); a missing or unparseable timestamp yields stale, not an error;
and a non-fresh report leaves the arrivals dict untouched — it is
excluded from enrichment entirely, even when its trip_id matches a
serving trip. -/
theorem vehicle_freshness (iso : String → Option ℤ) (nowUtcUs : ℤ) :
    (∀ ts, is_fresh iso nowUtcUs ts = true
      ↔ ts ≠ "" ∧ ∃ vt, iso ts = some vt ∧ nowUtcUs - vt < 600000000)
    ∧ (∀ stops routes tso srids filt acc v,
        is_fresh iso nowUtcUs v.timestamp = false →
        enrichVehicle stops routes tso srids filt nowUtcUs iso acc v = acc) := by
  constructor
  · intro ts
    rw [is_fresh]
    by_cases hts : ts = ""
    · simp [hts]
    · rw [if_neg hts]
      cases hiso : iso ts with
      | none => simp [hts, hiso]
      | some vt => simp [hts, hiso]
  · intro stops routes tso srids filt acc v h
    rw [enrichVehicle]
    by_cases hx : vehicleTypeExcluded filt v.vehicle_type
    · rw [if_pos hx]
    · rw [if_neg hx, h]
      rfl

/-- Witness for C8: a report whose timestamp is exactly 600 s old is
stale and enrichment leaves the dict unchanged even though its trip_id
matches the single dict entry. -/
theorem vehicle_freshness_witness :
    enrichVehicle [] [] [] [] none 600000000 (fun _ => some 0)
      [("t1", mkScheduleCandidate ⟨some "t1", none, none⟩ none "t1" none none none)]
      ⟨none, none, none, none, "x", none, some "t1", none, none, none, none⟩
      = [("t1", mkScheduleCandidate ⟨some "t1", none, none⟩ none "t1" none none none)] :=
  (vehicle_freshness (fun _ => some 0) 600000000).2 [] [] [] [] none
    [("t1", mkScheduleCandidate ⟨some "t1", none, none⟩ none "t1" none none none)]
    ⟨none, none, none, none, "x", none, some "t1", none, none, none, none⟩ (by decide)


/-- C1 counterexample: at 08:40 local time (31200 s after midnight), a
stop time of "12:00:00" has diff_minutes = 200, outside the claimed
-5..+180 window, yet get_arrivals emits a schedule candidate for it with
eta_minutes = 200: the window hard-coded at api.py line 259 is
-5..+1440, not -5..+180. -/
theorem window_claim_counterexample :
    (get_arrivals (cexStatic [cexStopTime "12:00:00"]) 1 none (31200 * 1000000) 0
      (.ok []) (fun _ => none)).map Candidate.eta_minutes = [some 200]
    ∧ diffMinutes 12 0 0 (31200 * 1000000) = 200 := by
  constructor
  · decide
  · rw [diffMinutes, show schedUs 12 0 0 = 43200000000 from rfl]
    norm_num

/-- C1 amended: the canonical acceptance window, identical on every
call, is -5 to +1440 minutes (api.py line 259; the adjacent comment says
240 is intended for usual use). Within the guard-and-parse path a record
is accepted iff diffMinutes lies in [-5, 1440]; a parsed record outside
that window contributes nothing to the schedule dict (the loop body
leaves it unchanged); and a record whose time string fails the guard or
fails to parse contributes no schedule ETA: its eta_minutes stays None,
never zero. -/
theorem acceptance_window_spec (s : Option String) (nowUs : ℤ) :
    (∀ h0 m sec, timeGuard s = true → pyParseHMS (s.getD "") = some (h0, m, sec) →
      (scheduleEta s nowUs = none
        ↔ ¬(-5 ≤ diffMinutes h0 m sec nowUs ∧ diffMinutes h0 m sec nowUs ≤ 1440))
      ∧ (scheduleEta s nowUs = some (some (max 0 (pyRound (diffMinutes h0 m sec nowUs))))
        ↔ (-5 ≤ diffMinutes h0 m sec nowUs ∧ diffMinutes h0 m sec nowUs ≤ 1440)))
    ∧ (timeGuard s = false → scheduleEta s nowUs = some none)
    ∧ (timeGuard s = true → pyParseHMS (s.getD "") = none → scheduleEta s nowUs = some none)
    ∧ (∀ trips routes serving filt acc st,
        scheduleEta (firstTruthy st.arrival_time st.departure_time) nowUs = none →
        processStopTime trips routes serving filt nowUs acc st = acc) := by
  refine ⟨?_, ?_, ?_, ?_⟩
  · intro h0 m sec hg hp
    rw [scheduleEta_diff_spec s nowUs h0 m sec hg hp]
    by_cases hw : -5 ≤ diffMinutes h0 m sec nowUs ∧ diffMinutes h0 m sec nowUs ≤ 1440
    · simp [hw]
    · simp [hw]
  · intro hg
    rw [scheduleEta, hg]
    rfl
  · intro hg hp
    rw [scheduleEta, hg, if_pos rfl, hp]
  · intro trips routes serving filt acc st h
    rw [processStopTime]
    by_cases h1 : st.trip_id = ""
    · rw [if_pos h1]
    · rw [if_neg h1]
      cases h2 : dlookup trips st.trip_id with
      | none => rfl
      | some trip =>
        simp only
        by_cases h3 : routeTypeExcluded filt
            (((dlookup routes (trip.route_id.getD (-1))).bind Route.route_type).getD 3)
        · rw [if_pos h3]
        · rw [if_neg h3, h]

/-- C6 counterexample: two stop-time records for the same trip t1, at
"10:00:00" and then "11:00:00", with now = 09:58 local: exactly one
candidate is kept, but it carries eta_minutes = 62 from the second
(last) record — the first record's eta would have been 2, so the first
stop-time does not win; the dict assignment at api.py line 269
overwrites the earlier candidate. -/
theorem duplicate_trip_counterexample :
    (get_arrivals (cexStatic [cexStopTime "10:00:00", cexStopTime "11:00:00"]) 1 none
      (35880 * 1000000) 0 (.ok []) (fun _ => none)).map Candidate.eta_minutes = [some 62]
    ∧ scheduleEta (some "10:00:00") (35880 * 1000000) = some (some 2)
    ∧ scheduleEta (some "11:00:00") (35880 * 1000000) = some (some 62) := by
  exact ⟨by decide, by decide, by decide⟩

/-- Keys of the schedule dict stay duplicate-free under dictSet. -/
theorem nodup_keys_dictSet {κ β : Type} [DecidableEq κ] (l : List (κ × β)) (k : κ) (v : β)
    (h : (l.map Prod.fst).Nodup) : ((dictSet l k v).map Prod.fst).Nodup := by
  rw [keys_dictSet]
  by_cases hm : k ∈ l.map Prod.fst
  · simpa [hm] using h
  · rw [if_neg hm, ← List.concat_eq_append]
    exact List.Nodup.concat hm h

/-- C6 amended: exactly one schedule candidate is kept per trip_id (the
schedule dict keys are duplicate-free), but when several qualifying
stop-time records share one trip_id, each later record overwrites the
earlier candidate, so the last qualifying record wins, not the first. -/
theorem one_candidate_per_trip_last_wins :
    (∀ (trips : List (String × Trip)) (routes : List (ℤ × Route)) (serving : List (String × ℤ))
        (filt : Option (List ℤ)) (nowUs : ℤ) (l : List StopTime),
      (((l.foldl (processStopTime trips routes serving filt nowUs) []).map Prod.fst)).Nodup)
    ∧ (∀ trips routes serving filt nowUs acc st trip eta,
        st.trip_id ≠ "" → dlookup trips st.trip_id = some trip →
        routeTypeExcluded filt
          (((dlookup routes (trip.route_id.getD (-1))).bind Route.route_type).getD 3) = false →
        scheduleEta (firstTruthy st.arrival_time st.departure_time) nowUs = some eta →
        dlookup (processStopTime trips routes serving filt nowUs acc st) st.trip_id
          = some (mkScheduleCandidate trip (dlookup routes (trip.route_id.getD (-1)))
              st.trip_id eta (firstTruthy st.arrival_time st.departure_time)
              (dlookup serving st.trip_id))) := by
  constructor
  · intro trips routes serving filt nowUs l
    refine foldl_preserve (fun acc => ((acc.map Prod.fst)).Nodup)
      (processStopTime trips routes serving filt nowUs) l [] ?_ (by simp)
    intro acc st _ hacc
    rw [processStopTime]
    by_cases h1 : st.trip_id = ""
    · rwa [if_pos h1]
    · rw [if_neg h1]
      cases h2 : dlookup trips st.trip_id with
      | none => exact hacc
      | some trip =>
        simp only
        by_cases h3 : routeTypeExcluded filt
            (((dlookup routes (trip.route_id.getD (-1))).bind Route.route_type).getD 3)
        · rwa [if_pos h3]
        · rw [if_neg h3]
          cases h4 : scheduleEta (firstTruthy st.arrival_time st.departure_time) nowUs with
          | none => exact hacc
          | some eta => exact nodup_keys_dictSet _ _ _ hacc
  · intro trips routes serving filt nowUs acc st trip eta h1 h2 h3 h4
    rw [processStopTime, if_neg h1, h2]
    simp only
    rw [if_neg (by rw [h3]; exact Bool.false_ne_true), h4]
    exact dlookup_dictSet_self _ _ _


/-- C7 counterexample: with a present input coordinate and a single
candidate stop that carries no coordinates, _estimate_seq returns index
0 rather than None: best_idx is initialised to 0 at api.py line 407 and
returned unconditionally at line 418 even when every stop was skipped. -/
theorem estimate_seq_counterexample :
    estimate_seq [(5, cexNoCoordStop)] (some 1) (some 2) [5] = some 0
    ∧ stopDist [(5, cexNoCoordStop)] 1 2 5 = none := by
  exact ⟨by decide, by decide⟩

/-- Invariants of the best-index fold inside _estimate_seq: the running
result only improves, its value is witnessed by some scanned pair, and
it stays none only when every scanned stop lacks coordinates. -/
theorem estimateFold_spec (stops : List (ℤ × Stop)) (la lo : ℚ) :
    ∀ (l : List (ℕ × ℤ)) (acc : ℕ × Option ℚ),
      (∀ p ∈ l, ∀ dp, stopDist stops la lo p.2 = some dp →
        ∀ d, (l.foldl (estimateStep stops la lo) acc).2 = some d → d ≤ dp)
      ∧ ((l.foldl (estimateStep stops la lo) acc) = acc
          ∨ ∃ q ∈ l, (l.foldl (estimateStep stops la lo) acc).1 = q.1
              ∧ ∃ dq, stopDist stops la lo q.2 = some dq
                ∧ (l.foldl (estimateStep stops la lo) acc).2 = some dq)
      ∧ (∀ d, (l.foldl (estimateStep stops la lo) acc).2 = some d →
          ∀ da, acc.2 = some da → d ≤ da)
      ∧ ((l.foldl (estimateStep stops la lo) acc).2 = none → acc.2 = none)
      ∧ ((∀ p ∈ l, stopDist stops la lo p.2 = none)
          ∨ ((l.foldl (estimateStep stops la lo) acc).2).isSome = true)
  | [], acc => by
    refine ⟨by simp, Or.inl rfl, ?_, by simp, Or.inl (by simp)⟩
    intro d hd da hda
    simp only [List.foldl_nil] at hd
    rw [hd] at hda
    exact le_of_eq (Option.some.inj hda)
  | p :: t, acc => by
    obtain ⟨ih1, ih2, ih4, ih5, ih6⟩ :=
      estimateFold_spec stops la lo t (estimateStep stops la lo acc p)
    have hkeep : stopDist stops la lo p.2 = none → estimateStep stops la lo acc p = acc := by
      intro h
      rw [estimateStep, h]
    have hsome : ∀ d0, stopDist stops la lo p.2 = some d0 →
        ∃ d2, (estimateStep stops la lo acc p).2 = some d2 ∧ d2 ≤ d0
          ∧ (∀ da, acc.2 = some da → d2 ≤ da) := by
      intro d0 h0
      cases hacc : acc.2 with
      | none =>
        have hv : estimateStep stops la lo acc p = (p.1, some d0) := by
          rw [estimateStep, h0]
          dsimp only
          rw [hacc]
        refine ⟨d0, by rw [hv], le_refl _, ?_⟩
        intro da hda
        cases hda
      | some bd =>
        by_cases hlt : d0 < bd
        · have hv : estimateStep stops la lo acc p = (p.1, some d0) := by
            rw [estimateStep, h0]
            dsimp only
            rw [hacc]
            dsimp only
            rw [if_pos hlt]
          refine ⟨d0, by rw [hv], le_refl _, ?_⟩
          intro da hda
          rw [← Option.some.inj hda]
          exact le_of_lt hlt
        · have hv : estimateStep stops la lo acc p = acc := by
            rw [estimateStep, h0]
            dsimp only
            rw [hacc]
            dsimp only
            rw [if_neg hlt]
          refine ⟨bd, by rw [hv, hacc], le_of_not_lt hlt, ?_⟩
          intro da hda
          exact le_of_eq (Option.some.inj hda)
    simp only [List.foldl_cons]
    refine ⟨?_, ?_, ?_, ?_, ?_⟩
    · intro q hq dp hdp d hd
      rcases List.mem_cons.mp hq with hq1 | hq1
      · rw [hq1] at hdp
        obtain ⟨d2, h2, hle, _⟩ := hsome dp hdp
        exact le_trans (ih4 d hd d2 h2) hle
      · exact ih1 q hq1 dp hdp d hd
    · rcases ih2 with h | h
      · cases hdist : stopDist stops la lo p.2 with
        | none =>
          rw [h, hkeep hdist]
          exact Or.inl rfl
        | some d0 =>
          rw [h]
          cases hacc : acc.2 with
          | none =>
            have hv : estimateStep stops la lo acc p = (p.1, some d0) := by
              rw [estimateStep, hdist]
              dsimp only
              rw [hacc]
            rw [hv]
            exact Or.inr ⟨p, List.mem_cons_self _ _, rfl, d0, hdist, rfl⟩
          | some bd =>
            by_cases hlt : d0 < bd
            · have hv : estimateStep stops la lo acc p = (p.1, some d0) := by
                rw [estimateStep, hdist]
                dsimp only
                rw [hacc]
                dsimp only
                rw [if_pos hlt]
              rw [hv]
              exact Or.inr ⟨p, List.mem_cons_self _ _, rfl, d0, hdist, rfl⟩
            · have hv : estimateStep stops la lo acc p = acc := by
                rw [estimateStep, hdist]
                dsimp only
                rw [hacc]
                dsimp only
                rw [if_neg hlt]
              rw [hv]
              exact Or.inl rfl
      · obtain ⟨q, hq, h1, dq, hdq, h2⟩ := h
        exact Or.inr ⟨q, List.mem_cons_of_mem _ hq, h1, dq, hdq, h2⟩
    · intro d hd da hda
      cases hdist : stopDist stops la lo p.2 with
      | none =>
        refine ih4 d hd da ?_
        rw [hkeep hdist]
        exact hda
      | some d0 =>
        obtain ⟨d2, h2, _, hmono⟩ := hsome d0 hdist
        exact le_trans (ih4 d hd d2 h2) (hmono da hda)
    · intro hd
      have h5 := ih5 hd
      cases hdist : stopDist stops la lo p.2 with
      | none =>
        rw [hkeep hdist] at h5
        exact h5
      | some d0 =>
        obtain ⟨d2, h2, _, _⟩ := hsome d0 hdist
        rw [h5] at h2
        cases h2
    · cases hdist : stopDist stops la lo p.2 with
      | none =>
        rcases ih6 with h | h
        · refine Or.inl ?_
          intro q hq
          rcases List.mem_cons.mp hq with hq1 | hq1
          · rw [hq1]
            exact hdist
          · exact h q hq1
        · exact Or.inr h
      | some d0 =>
        refine Or.inr ?_
        cases hr : (t.foldl (estimateStep stops la lo) (estimateStep stops la lo acc p)).2 with
        | some dd => rfl
        | none =>
          obtain ⟨d2, h2, _, _⟩ := hsome d0 hdist
          rw [ih5 hr] at h2
          cases h2

/-- When every scanned stop lacks coordinates, the best-index fold never
moves off its initial accumulator. -/
theorem estimateFold_allnone (stops : List (ℤ × Stop)) (la lo : ℚ) :
    ∀ (l : List (ℕ × ℤ)) (acc : ℕ × Option ℚ),
      (∀ p ∈ l, stopDist stops la lo p.2 = none) →
      l.foldl (estimateStep stops la lo) acc = acc
  | [], _, _ => rfl
  | p :: t, acc, h => by
    have hp := h p (List.mem_cons_self _ _)
    have hstep : estimateStep stops la lo acc p = acc := by rw [estimateStep, hp]
    simp only [List.foldl_cons, hstep]
    exact estimateFold_allnone stops la lo t acc (fun q hq => h q (List.mem_cons_of_mem _ hq))

/-- C7 amended: _estimate_seq returns None when the input coordinate is
absent (or falsy 0.0), the trip has no stops, or the stops table is
empty; otherwise it returns some index, and that index is an enumerated
position whose stop minimises the squared planar distance among the
stops that carry coordinates — except that when no candidate stop
carries coordinates it returns index 0 rather than None. -/
theorem estimate_seq_spec (stops : List (ℤ × Stop)) (lat lon : Option ℚ) (ts : List ℤ) :
    ((truthyCoord lat = false ∨ truthyCoord lon = false ∨ ts = [] ∨ stops = []) →
      estimate_seq stops lat lon ts = none)
    ∧ (truthyCoord lat = true → truthyCoord lon = true → ts ≠ [] → stops ≠ [] →
        ((∀ p ∈ ts.enum, stopDist stops (lat.getD 0) (lon.getD 0) p.2 = none) →
          estimate_seq stops lat lon ts = some 0)
        ∧ (∀ i, estimate_seq stops lat lon ts = some i →
            (∃ q ∈ ts.enum, q.1 = i
              ∧ ∃ dq, stopDist stops (lat.getD 0) (lon.getD 0) q.2 = some dq
              ∧ ∀ r ∈ ts.enum, ∀ dr,
                  stopDist stops (lat.getD 0) (lon.getD 0) r.2 = some dr → dq ≤ dr)
            ∨ ((∀ p ∈ ts.enum, stopDist stops (lat.getD 0) (lon.getD 0) p.2 = none)
                ∧ i = 0))) := by
  constructor
  · intro h
    rw [estimate_seq]
    rcases h with h | h | h | h
    · rw [h]
      simp
    · rw [h]
      simp
    · rw [h]
      simp
    · rw [h]
      simp
  · intro h1 h2 h3 h4
    have h3' : ts.isEmpty = false := by
      cases ts with
      | nil => exact absurd rfl h3
      | cons a b => rfl
    have h4' : stops.isEmpty = false := by
      cases stops with
      | nil => exact absurd rfl h4
      | cons a b => rfl
    have hguard : estimate_seq stops lat lon ts
        = some ((ts.enum.foldl (estimateStep stops (lat.getD 0) (lon.getD 0)) (0, none)).1) := by
      rw [estimate_seq, h1, h2, h3', h4']
      rfl
    constructor
    · intro hall
      rw [hguard, estimateFold_allnone stops (lat.getD 0) (lon.getD 0) ts.enum (0, none) hall]
    · intro i hi
      rw [hguard] at hi
      obtain ⟨s1, s2, _, _, s6⟩ :=
        estimateFold_spec stops (lat.getD 0) (lon.getD 0) ts.enum (0, none)
      rcases s6 with hall | hsome
      · refine Or.inr ⟨hall, ?_⟩
        rw [estimateFold_allnone stops (lat.getD 0) (lon.getD 0) ts.enum (0, none) hall] at hi
        exact (Option.some.inj hi).symm
      · rcases s2 with hacc | ⟨q, hq, hfst, dq, hdq, hval⟩
        · rw [hacc] at hsome
          cases hsome
        · refine Or.inl ⟨q, hq, ?_, dq, hdq, ?_⟩
          · rw [← hfst]
            exact Option.some.inj hi
          · intro r hr dr hdr
            exact s1 r hr dr hdr dq hval

theorem dlookup_mem {κ β : Type} [DecidableEq κ] :
    ∀ {l : List (κ × β)} {k : κ} {b : β}, dlookup l k = some b → (k, b) ∈ l
  | [], _, _, h => by cases h
  | (a, c) :: t, k, b, h => by
    by_cases hak : a = k
    · rw [dlookup, if_pos hak] at h
      rw [← hak, Option.some.inj h]
      exact List.mem_cons_self _ _
    · rw [dlookup, if_neg hak] at h
      exact List.mem_cons_of_mem _ (dlookup_mem h)

/-- An accepted scheduleEta value is the clamped rounded diff, hence
nonnegative. -/
theorem scheduleEta_nonneg {s : Option String} {nowUs e : ℤ}
    (h : scheduleEta s nowUs = some (some e)) : 0 ≤ e := by
  rw [scheduleEta] at h
  by_cases hg : timeGuard s
  · rw [if_pos hg] at h
    cases hp : pyParseHMS (s.getD "") with
    | none =>
      rw [hp] at h
      exact Option.noConfusion (Option.some.inj h)
    | some hms =>
      obtain ⟨h0, m, sec⟩ := hms
      simp only [hp] at h
      by_cases hw : -300000000 ≤ schedUs h0 m sec - nowUs
          ∧ schedUs h0 m sec - nowUs ≤ 86400000000
      · rw [if_pos hw] at h
        rw [← Option.some.inj (Option.some.inj h)]
        exact le_max_left _ _
      · rw [if_neg hw] at h
        cases h
  · rw [if_neg hg] at h
    exact Option.noConfusion (Option.some.inj h)

/-- Where an entry of the schedule dict can come from after one
stop-times loop iteration: either it was already present, or it is the
candidate freshly built from this record. -/
theorem processStopTime_mem {trips : List (String × Trip)} {routes : List (ℤ × Route)}
    {serving : List (String × ℤ)} {filt : Option (List ℤ)} {nowUs : ℤ}
    {acc : List (String × Candidate)} {st : StopTime} {p : String × Candidate}
    (h : p ∈ processStopTime trips routes serving filt nowUs acc st) :
    p ∈ acc
    ∨ ∃ trip eta, dlookup trips st.trip_id = some trip
        ∧ scheduleEta (firstTruthy st.arrival_time st.departure_time) nowUs = some eta
        ∧ p = (st.trip_id, mkScheduleCandidate trip (dlookup routes (trip.route_id.getD (-1)))
            st.trip_id eta (firstTruthy st.arrival_time st.departure_time)
            (dlookup serving st.trip_id)) := by
  rw [processStopTime] at h
  by_cases h1 : st.trip_id = ""
  · rw [if_pos h1] at h
    exact Or.inl h
  · rw [if_neg h1] at h
    cases h2 : dlookup trips st.trip_id with
    | none =>
      rw [h2] at h
      exact Or.inl h
    | some trip =>
      simp only [h2] at h
      by_cases h3 : routeTypeExcluded filt
          (((dlookup routes (trip.route_id.getD (-1))).bind Route.route_type).getD 3)
      · rw [if_pos h3] at h
        exact Or.inl h
      · rw [if_neg h3] at h
        cases h4 : scheduleEta (firstTruthy st.arrival_time st.departure_time) nowUs with
        | none =>
          rw [h4] at h
          exact Or.inl h
        | some eta =>
          rw [h4] at h
          rcases mem_dictSet h with h5 | h5
          · exact Or.inr ⟨trip, eta, rfl, rfl, h5⟩
          · exact Or.inl h5

/-- Where an entry can come from after a matched-vehicle update. -/
theorem enrichMatched_mem {acc : List (String × Candidate)} {tid : String}
    {a : Candidate} {v : Vehicle} {sa0 : Option ℤ} {p : String × Candidate}
    (h : p ∈ enrichMatched acc tid a v sa0) :
    p ∈ acc ∨ ∃ sa, p = (tid, enrichCandidate a v sa) := by
  cases sa0 with
  | none =>
    have h2 : p ∈ dictSet acc tid (enrichCandidate a v none) := h
    rcases mem_dictSet h2 with h1 | h1
    · exact Or.inr ⟨none, h1⟩
    · exact Or.inl h1
  | some sa =>
    by_cases hlt : sa < -1
    · by_cases he : a.eta_minutes = none
      · have h2 : p ∈ (if sa < -1 then (if a.eta_minutes = none then acc
            else dictSet acc tid (enrichCandidate a v none))
            else dictSet acc tid (enrichCandidate a v (some sa))) := h
        rw [if_pos hlt, if_pos he] at h2
        exact Or.inl h2
      · have h2 : p ∈ (if sa < -1 then (if a.eta_minutes = none then acc
            else dictSet acc tid (enrichCandidate a v none))
            else dictSet acc tid (enrichCandidate a v (some sa))) := h
        rw [if_pos hlt, if_neg he] at h2
        rcases mem_dictSet h2 with h1 | h1
        · exact Or.inr ⟨none, h1⟩
        · exact Or.inl h1
    · have h2 : p ∈ (if sa < -1 then (if a.eta_minutes = none then acc
          else dictSet acc tid (enrichCandidate a v none))
          else dictSet acc tid (enrichCandidate a v (some sa))) := h
      rw [if_neg hlt] at h2
      rcases mem_dictSet h2 with h1 | h1
      · exact Or.inr ⟨some sa, h1⟩
      · exact Or.inl h1

/-- Where an entry can come from after a route-only vehicle insertion. -/
theorem addSyntheticVehicle_mem {acc : List (String × Candidate)}
    {routes : List (ℤ × Route)} {rid : ℤ} {v : Vehicle} {p : String × Candidate}
    (h : p ∈ addSyntheticVehicle acc routes rid v) :
    p ∈ acc ∨ ∃ route rt k, p = (k, mkVehicleCandidate route rid rt v) := by
  rw [addSyntheticVehicle] at h
  by_cases hk : (dlookup acc
      ("_vehicle_" ++ (match v.id with | some i => toString i | none => ""))).isSome
  · simp only [hk, if_true] at h
    exact Or.inl h
  · simp only [hk, if_false, Bool.false_eq_true] at h
    rcases List.mem_append.mp h with h1 | h1
    · exact Or.inl h1
    · rcases List.mem_singleton.mp h1 with h2
      exact Or.inr ⟨_, _, _, h2⟩

/-- Where an entry can come from after one vehicles-loop iteration. -/
theorem enrichVehicle_mem {stops : List (ℤ × Stop)} {routes : List (ℤ × Route)}
    {tso : List (String × List ℤ)} {srids : List ℤ} {filt : Option (List ℤ)}
    {nowUtcUs : ℤ} {iso : String → Option ℤ} {acc : List (String × Candidate)}
    {v : Vehicle} {p : String × Candidate}
    (h : p ∈ enrichVehicle stops routes tso srids filt nowUtcUs iso acc v) :
    p ∈ acc
    ∨ (∃ a sa tid, (tid, a) ∈ acc ∧ p = (tid, enrichCandidate a v sa))
    ∨ (∃ k route rid rt, p = (k, mkVehicleCandidate route rid rt v)) := by
  rw [enrichVehicle] at h
  by_cases hx : vehicleTypeExcluded filt v.vehicle_type
  · rw [if_pos hx] at h
    exact Or.inl h
  · rw [if_neg hx] at h
    by_cases hf : is_fresh iso nowUtcUs v.timestamp
    · simp only [hf, Bool.not_true, Bool.false_eq_true, if_false] at h
      cases ht : truthyStr v.trip_id with
      | true =>
        cases hl : dlookup acc (v.trip_id.getD "") with
        | some a =>
          simp only [ht, hl] at h
          rcases enrichMatched_mem h with h1 | ⟨sa, h1⟩
          · exact Or.inl h1
          · exact Or.inr (Or.inl ⟨a, sa, v.trip_id.getD "", dlookup_mem hl, h1⟩)
        | none =>
          simp only [ht, hl] at h
          cases hr : v.route_id with
          | none =>
            rw [hr] at h
            exact Or.inl h
          | some rid =>
            rw [hr] at h
            dsimp only at h
            rw [if_neg (by simp : ¬(rid ∈ srids ∧ true = false))] at h
            exact Or.inl h
      | false =>
        simp only [ht] at h
        cases hr : v.route_id with
        | none =>
          rw [hr] at h
          exact Or.inl h
        | some rid =>
          rw [hr] at h
          dsimp only at h
          by_cases hm : rid ∈ srids
          · rw [if_pos ⟨hm, trivial⟩] at h
            rcases addSyntheticVehicle_mem h with h1 | ⟨route, rt, k, h1⟩
            · exact Or.inl h1
            · exact Or.inr (Or.inr ⟨k, route, rid, rt, h1⟩)
          · rw [if_neg (fun hc => hm hc.1)] at h
            exact Or.inl h
    · simp only [hf] at h
      exact Or.inl h


theorem arrivalsDict_inv (sd : StaticData) (stop_id : ℤ) (filt : Option (List ℤ))
    (nowUs nowUtcUs : ℤ) (vf : Except TzErr (List Vehicle)) (iso : String → Option ℤ) :
    ∀ p ∈ arrivalsDict sd stop_id filt nowUs nowUtcUs vf iso,
      CandInv ((dlookup sd.stop_times_by_stop stop_id).getD []) nowUs p.2 := by
  rw [arrivalsDict]
  refine foldl_preserve
    (fun (acc : List (String × Candidate)) =>
      ∀ p ∈ acc, CandInv ((dlookup sd.stop_times_by_stop stop_id).getD []) nowUs p.2)
    _ _ _ ?_ ?_
  · intro acc v _ hacc p hp
    rcases enrichVehicle_mem hp with h1 | ⟨a, sa, tid, hmem, he⟩ | ⟨k, route, rid, rt, he⟩
    · exact hacc p h1
    · rw [he]
      constructor
      · intro e hee
        exact (hacc (tid, a) hmem).1 e hee
      · intro s hs
        cases sa with
        | none => exact Option.noConfusion hs
        | some x =>
          have : max 0 x = s := Option.some.inj hs
          rw [← this]
          exact le_max_left _ _
    · rw [he]
      constructor
      · intro e hee
        exact Option.noConfusion hee
      · intro s hs
        exact Option.noConfusion hs
  · refine foldl_preserve
      (fun (acc : List (String × Candidate)) =>
        ∀ p ∈ acc, CandInv ((dlookup sd.stop_times_by_stop stop_id).getD []) nowUs p.2)
      _ _ _ ?_ (by intro p hp; cases hp)
    intro acc st hst hacc p hp
    rcases processStopTime_mem hp with h1 | ⟨trip, eta, _, h4, he⟩
    · exact hacc p h1
    · rw [he]
      constructor
      · intro e hee
        have heta : eta = some e := hee
        have h4' : scheduleEta (firstTruthy st.arrival_time st.departure_time) nowUs
            = some (some e) := by
          rw [h4, heta]
        exact ⟨scheduleEta_nonneg h4', st, hst, h4'⟩
      · intro s hs
        exact Option.noConfusion hs

/-- Every candidate returned by get_arrivals passed the final filter and
is the value of some entry of the arrivals dict. -/
theorem mem_get_arrivals {sd : StaticData} {stop_id : ℤ} {filt : Option (List ℤ)}
    {nowUs nowUtcUs : ℤ} {vf : Except TzErr (List Vehicle)} {iso : String → Option ℤ}
    {c : Candidate} (h : c ∈ get_arrivals sd stop_id filt nowUs nowUtcUs vf iso) :
    hasSignal c = true
    ∧ ∃ p ∈ arrivalsDict sd stop_id filt nowUs nowUtcUs vf iso, p.2 = c := by
  rw [get_arrivals] at h
  by_cases hempty : ((dlookup sd.stop_times_by_stop stop_id).getD []).isEmpty
  · rw [if_pos hempty] at h
    cases h
  · rw [if_neg hempty] at h
    rw [sortAndFilter] at h
    have h1 := List.mem_filter.mp h
    have h2 := (List.mem_insertionSort keyLE).mp h1.1
    rcases List.mem_map.mp h2 with ⟨p, hp, he⟩
    exact ⟨h1.2, p, hp, he⟩

/-- C4: an accepted stop-time record gets
eta_minutes = max(0, round((scheduled - now)/60)) computed from its own
parsed time with divmod day rollover, and every schedule ETA appearing
in the output is nonnegative and arises that way from some stop-time
record of the stop. -/
theorem eta_formula_and_nonneg (sd : StaticData) (stop_id : ℤ) (filt : Option (List ℤ))
    (nowUs nowUtcUs : ℤ) (vf : Except TzErr (List Vehicle)) (iso : String → Option ℤ) :
    (∀ s h0 m sec, timeGuard s = true → pyParseHMS (s.getD "") = some (h0, m, sec) →
      ∀ e, scheduleEta s nowUs = some (some e) →
        e = max 0 (pyRound (diffMinutes h0 m sec nowUs)) ∧ 0 ≤ e)
    ∧ (∀ c ∈ get_arrivals sd stop_id filt nowUs nowUtcUs vf iso,
        ∀ e, c.eta_minutes = some e →
          0 ≤ e ∧ ∃ rec ∈ (dlookup sd.stop_times_by_stop stop_id).getD [],
            scheduleEta (firstTruthy rec.arrival_time rec.departure_time) nowUs
              = some (some e)) := by
  constructor
  · intro s h0 m sec hg hp e he
    rw [scheduleEta_diff_spec s nowUs h0 m sec hg hp] at he
    by_cases hw : -5 ≤ diffMinutes h0 m sec nowUs ∧ diffMinutes h0 m sec nowUs ≤ 1440
    · rw [if_pos hw] at he
      have := Option.some.inj (Option.some.inj he)
      exact ⟨this.symm, by rw [← this]; exact le_max_left _ _⟩
    · rw [if_neg hw] at he
      cases he
  · intro c hc e he
    obtain ⟨_, p, hp, hpc⟩ := mem_get_arrivals hc
    have hinv := arrivalsDict_inv sd stop_id filt nowUs nowUtcUs vf iso p hp
    rw [hpc] at hinv
    exact hinv.1 e he


theorem keyLE_orderOK {a b : Candidate} (h : keyLE a b) : orderOK a b := by
  rw [keyLE, lexLE] at h
  rw [orderOK]
  rcases hae : a.eta_minutes with _ | ea <;>
    rcases hbe : b.eta_minutes with _ | eb <;>
    rcases has : a.stops_away with _ | sa <;>
    rcases hbs : b.stops_away with _ | sb <;>
    rcases har : a.is_realtime with _ | _ <;>
    rcases hbr : b.is_realtime with _ | _ <;>
    simp only [sortKey, hae, hbe, has, hbs, har, hbr, if_true, if_false,
      Bool.false_eq_true, ite_true, ite_false] at h <;>
    simp [hae, hbe, has, hbs, har, hbr] <;>
    intros <;>
    omega

theorem keyLE_of_key_eq {a b : Candidate} (h : sortKey a = sortKey b) : keyLE a b := by
  rw [keyLE, lexLE, h]
  exact Or.inr ⟨rfl, Or.inr ⟨rfl, le_refl _⟩⟩

/-- C5: the output of get_arrivals is ranked — pairwise, eta-bearing
candidates come first in ascending eta order, then stops_away
candidates, then realtime candidates with neither signal, and nothing
else; equal sort keys (ties within a tier) keep the discovery order of
the arrivals dict, because Python's list.sort is stable; and no output
candidate carries a negative stops_away. -/
theorem ranking_invariant (sd : StaticData) (stop_id : ℤ) (filt : Option (List ℤ))
    (nowUs nowUtcUs : ℤ) (vf : Except TzErr (List Vehicle)) (iso : String → Option ℤ) :
    List.Pairwise orderOK (get_arrivals sd stop_id filt nowUs nowUtcUs vf iso)
    ∧ (∀ a b, sortKey a = sortKey b → hasSignal a = true → hasSignal b = true →
        ((dlookup sd.stop_times_by_stop stop_id).getD []).isEmpty = false →
        List.Sublist [a, b] ((arrivalsDict sd stop_id filt nowUs nowUtcUs vf iso).map Prod.snd) →
        List.Sublist [a, b] (get_arrivals sd stop_id filt nowUs nowUtcUs vf iso))
    ∧ (∀ c ∈ get_arrivals sd stop_id filt nowUs nowUtcUs vf iso,
        ∀ s, c.stops_away = some s → 0 ≤ s) := by
  refine ⟨?_, ?_, ?_⟩
  · rw [get_arrivals]
    by_cases hempty : ((dlookup sd.stop_times_by_stop stop_id).getD []).isEmpty
    · rw [if_pos hempty]
      exact List.Pairwise.nil
    · rw [if_neg hempty, sortAndFilter]
      have hsorted := List.sorted_insertionSort keyLE
        ((arrivalsDict sd stop_id filt nowUs nowUtcUs vf iso).map Prod.snd)
      have hfiltered : List.Pairwise keyLE (List.filter hasSignal (List.insertionSort keyLE
          ((arrivalsDict sd stop_id filt nowUs nowUtcUs vf iso).map Prod.snd))) :=
        List.Pairwise.sublist (List.filter_sublist _) hsorted
      exact hfiltered.imp (fun hab => keyLE_orderOK hab)
  · intro a b hk ha hb hempty hsub
    rw [get_arrivals, if_neg (by rw [hempty]; exact Bool.false_ne_true), sortAndFilter]
    have h1 : List.Sublist [a, b] (List.insertionSort keyLE
        ((arrivalsDict sd stop_id filt nowUs nowUtcUs vf iso).map Prod.snd)) :=
      List.pair_sublist_insertionSort (keyLE_of_key_eq hk) hsub
    have h2 := List.Sublist.filter hasSignal h1
    rwa [show List.filter hasSignal [a, b] = [a, b] by simp [ha, hb]] at h2
  · intro c hc s hs
    obtain ⟨_, p, hp, hpc⟩ := mem_get_arrivals hc
    have hinv := arrivalsDict_inv sd stop_id filt nowUs nowUtcUs vf iso p hp
    rw [hpc] at hinv
    exact hinv.2 s hs

/-- For a fresh, filter-passing vehicle with a truthy trip_id matching a
dict entry, the vehicles loop body reduces to the matched-candidate
update. -/
theorem enrichVehicle_case1 (stops : List (ℤ × Stop)) (routes : List (ℤ × Route))
    (tso : List (String × List ℤ)) (srids : List ℤ) (filt : Option (List ℤ))
    (nowUtcUs : ℤ) (iso : String → Option ℤ) (acc : List (String × Candidate))
    (v : Vehicle) (tid : String) (a : Candidate)
    (hx : vehicleTypeExcluded filt v.vehicle_type = false)
    (hf : is_fresh iso nowUtcUs v.timestamp = true)
    (ht : v.trip_id = some tid) (htn : tid ≠ "")
    (hl : dlookup acc tid = some a) :
    enrichVehicle stops routes tso srids filt nowUtcUs iso acc v
      = enrichMatched acc tid a v (vehicleStopsAway a
          (estimate_seq stops v.latitude v.longitude ((dlookup tso tid).getD []))) := by
  have htid : v.trip_id.getD "" = tid := by rw [ht]; rfl
  have htt : truthyStr v.trip_id = true := by
    rw [ht, truthyStr]
    simp [htn]
  rw [enrichVehicle, hx, hf]
  dsimp only
  rw [htid, htt, hl]
  rfl

/-- C10: for a fresh, filter-passing vehicle whose trip_id matches a
schedule candidate with known trip index, and a known vehicle position
estimate: when stops_away = our_idx - vehicle_idx is below -1 and the
candidate has no schedule ETA, the dict is left unchanged (and any
candidate with no ETA, no stops_away and no realtime mark is dropped
from the final output by the filter); when stops_away < -1 but an ETA
exists, stops_away is cleared to unknown and the ETA kept, with
is_realtime set; otherwise stops_away is clamped to at least 0 and
is_realtime set. -/
theorem stops_away_clamping (stops : List (ℤ × Stop)) (routes : List (ℤ × Route))
    (tso : List (String × List ℤ)) (srids : List ℤ) (filt : Option (List ℤ))
    (nowUtcUs : ℤ) (iso : String → Option ℤ) (acc : List (String × Candidate))
    (v : Vehicle) (tid : String) (a : Candidate)
    (hx : vehicleTypeExcluded filt v.vehicle_type = false)
    (hf : is_fresh iso nowUtcUs v.timestamp = true)
    (ht : v.trip_id = some tid) (htn : tid ≠ "")
    (hl : dlookup acc tid = some a) :
    (∀ oi vs, a.our_seq_idx = some oi →
      estimate_seq stops v.latitude v.longitude ((dlookup tso tid).getD []) = some vs →
      ((oi - (vs : ℤ) < -1 → a.eta_minutes = none →
          enrichVehicle stops routes tso srids filt nowUtcUs iso acc v = acc)
      ∧ (oi - (vs : ℤ) < -1 → a.eta_minutes ≠ none →
          dlookup (enrichVehicle stops routes tso srids filt nowUtcUs iso acc v) tid
            = some (enrichCandidate a v none)
          ∧ (enrichCandidate a v none).stops_away = none
          ∧ (enrichCandidate a v none).eta_minutes = a.eta_minutes
          ∧ (enrichCandidate a v none).is_realtime = true)
      ∧ (¬(oi - (vs : ℤ) < -1) →
          dlookup (enrichVehicle stops routes tso srids filt nowUtcUs iso acc v) tid
            = some (enrichCandidate a v (some (oi - (vs : ℤ))))
          ∧ (enrichCandidate a v (some (oi - (vs : ℤ)))).stops_away
              = some (max 0 (oi - (vs : ℤ)))
          ∧ (enrichCandidate a v (some (oi - (vs : ℤ)))).is_realtime = true)))
    ∧ (∀ (sd : StaticData) (stop_id : ℤ) (filt2 : Option (List ℤ)) (nowUs nowUtc2 : ℤ)
        (vf : Except TzErr (List Vehicle)) (iso2 : String → Option ℤ) (c : Candidate),
        c ∈ get_arrivals sd stop_id filt2 nowUs nowUtc2 vf iso2 → hasSignal c = true) := by
  constructor
  · intro oi vs hoi hvs
    have hmain := enrichVehicle_case1 stops routes tso srids filt nowUtcUs iso acc v tid a
      hx hf ht htn hl
    rw [hvs] at hmain
    have hsa : vehicleStopsAway a (some vs) = some (oi - (vs : ℤ)) := by
      simp [vehicleStopsAway, hoi]
    rw [hsa] at hmain
    have hred : enrichMatched acc tid a v (some (oi - (vs : ℤ)))
        = if oi - (vs : ℤ) < -1 then
            (if a.eta_minutes = none then acc
             else dictSet acc tid (enrichCandidate a v none))
          else dictSet acc tid (enrichCandidate a v (some (oi - (vs : ℤ)))) := rfl
    refine ⟨?_, ?_, ?_⟩
    · intro hlt he
      rw [hmain, hred, if_pos hlt, if_pos he]
    · intro hlt he
      rw [hmain, hred, if_pos hlt, if_neg he]
      exact ⟨dlookup_dictSet_self _ _ _, rfl, rfl, rfl⟩
    · intro hlt
      rw [hmain, hred, if_neg hlt]
      exact ⟨dlookup_dictSet_self _ _ _, rfl, rfl⟩
  · intro sd stop_id filt2 nowUs nowUtc2 vf iso2 c hc
    exact (mem_get_arrivals hc).1


/-- Witness for C10: a vehicle estimated at index 0 with our stop at
index 3 yields stops_away 3 on the matched candidate. -/
theorem stops_away_clamping_witness :
    dlookup (enrichVehicle [(5, w10stop)] [] [("t1", [5])] [] none 0 (fun _ => some 0)
        [("t1", w10a)] w10v) "t1" = some (enrichCandidate w10a w10v (some 3)) := by
  have h := ((stops_away_clamping [(5, w10stop)] [] [("t1", [5])] [] none 0 (fun _ => some 0)
      [("t1", w10a)] w10v "t1" w10a (by decide) (by decide) rfl (by decide) (by decide)).1
      3 0 (by decide) (by decide)).2.2 (by decide)
  exact h.1

end Tranzy
